import Mathlib

/-!
Shallow embedding of the `TektronixCurveTracer` class and the measurement
routines of the repository `semi-automatic-dut-curves-characterization-`
(files `src/main.py` and `src/sinusoidal_cycling_caract.py`).

Numbers handled by the Python code (peak power, sensitivities, supply
percentages, step sizes, offsets) are modelled as exact rationals `ℚ`.
Python exceptions are modelled explicitly: an operation that can let an
exception escape returns an `Option`/a `Bool` flag.  The external
`pymeasure` driver object `concrete_tek_ct` is modelled as a record of the
attributes the repository reads and writes; its validity tables
(`HORIZONTAL_DISPLAY_SENSITIVITY_VALID_SELECTIONS_VS_PEAKPOWER_FOR_SOURCE`
etc.) are abstract functions from source name and peak power to a list of
valid values, carried in the state.
-/

namespace DUT

/-- Python's built-in `round(q)` to an integer: round half to even
(banker's rounding), as used by `round(x, ndigits)` in
`__change_stepgen_offset` and `change_stepgen_offset`. -/
def roundHalfEven (q : ℚ) : ℤ :=
  let f := ⌊q⌋
  if q - f < 1/2 then f
  else if 1/2 < q - f then f + 1
  else if f % 2 = 0 then f else f + 1

/-- Python's `round(q, n)` for `n ≥ 0` digits, on exact rationals. -/
def pyRound (q : ℚ) (n : ℕ) : ℚ :=
  (roundHalfEven (q * 10 ^ n) : ℚ) / 10 ^ n

/-- Python's `list.index(x)`: index of the first occurrence, `none` when the
value does not occur (Python raises `ValueError`, which the repository never
catches). -/
def pyIndex (xs : List ℚ) (x : ℚ) : Option ℕ :=
  match xs with
  | [] => none
  | y :: ys => if y = x then some 0 else (pyIndex ys x).map (· + 1)

/-- Python's subscript `xs[i]` for a possibly negative `i`: a negative index
counts from the end (`xs[-1]` is the last element); out-of-range access
raises `IndexError`, modelled as `none`. -/
def pyGet (xs : List ℚ) (i : ℤ) : Option ℚ :=
  let j := if i < 0 then i + xs.length else i
  if h : 0 ≤ j ∧ j < (xs.length : ℤ) then some (xs.get ⟨j.toNat, by omega⟩)
  else none

/-- State of the instrument as seen through the attributes of
`concrete_tek_ct` that the repository reads and writes.  The three table
fields model the driver's class-level validity tables, indexed by source
name and peak power. -/
structure Tek371A where
  cs_peakpower : ℚ
  cs_polarity : String
  cs_collector_supply : ℚ
  stepgen_source : String
  stepgen_step_size : ℚ
  stepgen_number_steps : ℤ
  stepgen_offset : ℚ
  display_store_mode : String
  display_h_source : String
  display_h_sens : ℚ
  display_v_source : String
  display_v_sens : ℚ
  cursor_mode : String
  cursor_pos : ℤ
  measure_mode : String
  hSensTable : String → ℚ → List ℚ
  vSensTable : String → ℚ → List ℚ
  stepSizeTable : String → ℚ → List ℚ

/-- `TektronixCurveTracer.VALID_PEAK_POWER = [300, 3000]`. -/
def VALID_PEAK_POWER : List ℚ := [300, 3000]

/-- `TektronixCurveTracer.STEPGEN_OFFSET_RESOLUTION = 0.01`. -/
def STEPGEN_OFFSET_RESOLUTION : ℚ := 1/100

/-- `TektronixCurveTracer.COLLECTOR_SUPPLY_RESOLUTION = 0.1`. -/
def COLLECTOR_SUPPLY_RESOLUTION : ℚ := 1/10

/-- `get_peak_power` (identical in both files). -/
def getPeakPower (s : Tek371A) : ℚ := s.cs_peakpower

/-- `set_peak_power` (identical in both files): raises when the argument is
not in `VALID_PEAK_POWER`, otherwise assigns `cs_peakpower`.  The `Bool`
component is `true` when the exception is raised; the raise happens before
any assignment, so the state component is then the unchanged input state. -/
def setPeakPower (s : Tek371A) (pp : ℚ) : Tek371A × Bool :=
  if pp ∉ VALID_PEAK_POWER then (s, true)
  else ({ s with cs_peakpower := pp }, false)

/-- `set_collector_suplly` (identical in both files). -/
def setCollectorSupply (s : Tek371A) (value : ℚ) : Tek371A :=
  { s with cs_collector_supply := value }

/-- `change_collector_supply` (identical in both files): note that the
computed `_delta` is never used; the raw `delta` argument is added. -/
def changeCollectorSupply (s : Tek371A) (increase : Bool) (delta : ℚ) : Tek371A :=
  let actual_cs := s.cs_collector_supply
  let d0 := if delta < COLLECTOR_SUPPLY_RESOLUTION then COLLECTOR_SUPPLY_RESOLUTION else |delta|
  let _delta := if increase then d0 else -d0
  setCollectorSupply s (actual_cs + delta)

/-- `increase_collector_supply` (identical in both files). -/
def increaseCollectorSupply (s : Tek371A) (delta : ℚ) : Tek371A :=
  changeCollectorSupply s true delta

/-- `decrease_collector_supply` (identical in both files). -/
def decreaseCollectorSupply (s : Tek371A) (delta : ℚ) : Tek371A :=
  changeCollectorSupply s false delta

/-- `set_horizontal_sensitivity` (identical in both files): keeps the
horizontal source, replaces the sensitivity. -/
def setHorizontalSensitivity (s : Tek371A) (sensitivity : ℚ) : Tek371A :=
  { s with display_h_sens := sensitivity }

/-- `get_horizontal_sensitivity` (identical in both files). -/
def getHorizontalSensitivity (s : Tek371A) : ℚ := s.display_h_sens

/-- `get_valid_horizontal_sensitivities` (identical in both files). -/
def validHorizontalSensitivities (s : Tek371A) : List ℚ :=
  s.hSensTable s.display_h_source (getPeakPower s)

/-- `change_horizontal_sensitivity` (identical in both files).  The
`list.index` call sits outside the `try`, so a missing current value lets
`ValueError` escape (`none`); the subscript sits inside `try/except`, so an
`IndexError` is swallowed and the state is returned unchanged. -/
def changeHorizontalSensitivity (s : Tek371A) (increase : Bool) : Option Tek371A :=
  let horizontal_sensitivity := getHorizontalSensitivity s
  let horizontal_sensitivities := validHorizontalSensitivities s
  match pyIndex horizontal_sensitivities horizontal_sensitivity with
  | none => none
  | some index =>
    let new_index : ℤ := if increase then (index : ℤ) - 1 else (index : ℤ) + 1
    match pyGet horizontal_sensitivities new_index with
    | none => some s
    | some v => some (setHorizontalSensitivity s v)

/-- `set_vertical_sensitivity` (identical in both files). -/
def setVerticalSensitivity (s : Tek371A) (sensitivity : ℚ) : Tek371A :=
  { s with display_v_sens := sensitivity }

/-- `get_vertical_sensitivity` (identical in both files). -/
def getVerticalSensitivity (s : Tek371A) : ℚ := s.display_v_sens

/-- `get_valid_vertical_sensitivities` (identical in both files). -/
def validVerticalSensitivities (s : Tek371A) : List ℚ :=
  s.vSensTable s.display_v_source (getPeakPower s)

/-- `change_vertical_sensitivity` (identical in both files); same structure
as `change_horizontal_sensitivity`. -/
def changeVerticalSensitivity (s : Tek371A) (increase : Bool) : Option Tek371A :=
  let vertical_sensitivity := getVerticalSensitivity s
  let vertical_sensitivities := validVerticalSensitivities s
  match pyIndex vertical_sensitivities vertical_sensitivity with
  | none => none
  | some index =>
    let new_index : ℤ := if increase then (index : ℤ) - 1 else (index : ℤ) + 1
    match pyGet vertical_sensitivities new_index with
    | none => some s
    | some v => some (setVerticalSensitivity s v)

/-- `set_stepgen_step_size` (identical in both files). -/
def setStepgenStepSize (s : Tek371A) (step_size : ℚ) : Tek371A :=
  { s with stepgen_step_size := step_size }

/-- `get_stepgen_step_size` (identical in both files). -/
def getStepgenStepSize (s : Tek371A) : ℚ := s.stepgen_step_size

/-- `get_valid_stepgen_step_sizes` (identical in both files). -/
def validStepgenStepSizes (s : Tek371A) : List ℚ :=
  s.stepSizeTable s.stepgen_source (getPeakPower s)

/-- `change_stepgen_step_size` as written in `src/main.py` (lines 279-298):
linear search for the current size, explicit clamping at both ends of the
table, subscript guarded by `try/except`. -/
def changeStepgenStepSize (s : Tek371A) (increase : Bool) : Option Tek371A :=
  let stepgen_size := getStepgenStepSize s
  let stepgen_sizes := validStepgenStepSizes s
  match pyIndex stepgen_sizes stepgen_size with
  | none => none
  | some index =>
    let index1 := if increase
      then (if index = stepgen_sizes.length - 1 then index else index + 1)
      else (if index = 0 then index else index - 1)
    match pyGet stepgen_sizes (index1 : ℤ) with
    | none => some s
    | some v => some (setStepgenStepSize s v)

/-- `change_stepgen_step_size` as written in
`src/sinusoidal_cycling_caract.py` (lines 363-382), translated
independently from that file. -/
def changeStepgenStepSize_scc (s : Tek371A) (increase : Bool) : Option Tek371A :=
  let stepgen_size := getStepgenStepSize s
  let stepgen_sizes := validStepgenStepSizes s
  match pyIndex stepgen_sizes stepgen_size with
  | none => none
  | some index =>
    let index1 := if increase
      then (if index = stepgen_sizes.length - 1 then index else index + 1)
      else (if index = 0 then index else index - 1)
    match pyGet stepgen_sizes (index1 : ℤ) with
    | none => some s
    | some v => some (setStepgenStepSize s v)

/-- `set_stepgen_offset` (both files; `main.py` delegates to the driver
method, `sinusoidal_cycling_caract.py` assigns the attribute). -/
def setStepgenOffset (s : Tek371A) (offset : ℚ) : Tek371A :=
  { s with stepgen_offset := offset }

/-- `get_stepgen_offset`. -/
def getStepgenOffset (s : Tek371A) : ℚ := s.stepgen_offset

/-- `change_stepgen_offset` of `src/main.py` (lines 252-260; no limit
check, `min(...)`-free variant). -/
def changeStepgenOffset (s : Tek371A) (delta : ℚ) (increase : Bool) : Tek371A :=
  let offset := getStepgenOffset s
  let step := getStepgenStepSize s
  let min_delta := -STEPGEN_OFFSET_RESOLUTION * step
  let min_delta1 := pyRound min_delta 3
  let d := if delta < min_delta1 then min_delta1 else |delta|
  let d1 := if increase then d else -d
  setStepgenOffset s (offset + d1)

/-- `__change_stepgen_offset` of `src/sinusoidal_cycling_caract.py`
(lines 324-337): returns the state unchanged once the rounded offset has
reached `±|limit|`; otherwise moves the offset by
`±max(round(-0.01*step, 3), |delta|)`. -/
def changeStepgenOffsetPrivate (s : Tek371A) (delta limit : ℚ) (increase : Bool) : Tek371A :=
  let offset := getStepgenOffset s
  let r_offset := pyRound offset 2
  let abs_limit_value := |limit|
  if -abs_limit_value ≥ r_offset ∨ r_offset ≥ abs_limit_value then s
  else
    let step := getStepgenStepSize s
    let min_delta := -STEPGEN_OFFSET_RESOLUTION * step
    let min_delta1 := max (pyRound min_delta 3) |delta|
    let min_delta2 := if increase then min_delta1 else -min_delta1
    setStepgenOffset s (offset + min_delta2)

/-- `vary_stepgen_offset` of `src/sinusoidal_cycling_caract.py`
(lines 339-350). -/
def varyStepgenOffset (s : Tek371A) (delta limit : ℚ) : Tek371A :=
  if delta ≤ 0 then changeStepgenOffsetPrivate s delta limit false
  else changeStepgenOffsetPrivate s delta limit true

/-- `set_number_of_steps` (identical in both files). -/
def setNumberOfSteps (s : Tek371A) (n_steps : ℤ) : Tek371A :=
  { s with stepgen_number_steps := n_steps }

/-- `change_number_of_steps` (identical in both files). -/
def changeNumberOfSteps (s : Tek371A) (increase : Bool) : Tek371A :=
  let n_steps := s.stepgen_number_steps
  let n_steps1 := if increase then n_steps + 1 else n_steps - 1
  setNumberOfSteps s n_steps1

/-- `start_sweep` (identical in both files): sets the measure mode to
`"SWEep"`. -/
def startSweep (s : Tek371A) : Tek371A :=
  { s with measure_mode := "SWEep" }

/-!
Trace model of the measurement routines `measure_3Q`, `measure_IdVd` and
`measure_IdVgs` of `src/sinusoidal_cycling_caract.py`.  The physical
instrument is an oracle `Env`: for measure number `m` and polling step `k`
it yields the cursor readouts `(i_cursor, v_cursor)`, and for measure
number `m` the curve returned by `get_curve()`.  A run is recorded as a
list of events; `print` and `sleep` calls produce no event.
-/

/-- Oracle for the instrument's responses: `readouts m k` is the pair
`(get_current_readout, get_voltage_readout)` observed at the `k`-th polling
step of measure `m`; `curve m` is `get_curve().points` of measure `m`. -/
structure Env where
  readouts : ℕ → ℕ → ℚ × ℚ
  curve : ℕ → List (ℚ × ℚ)

/-- Observable events of a measurement run. -/
inductive Ev where
  | initConf
  | activateSrq
  | incCollectorSupply (delta : ℚ)
  | varyOffset (delta limit : ℚ)
  | readReadouts
  | startSweepEv
  | waitSrq
  | readCurve
  | writeFile (name contents : String)
  | discardEvents
deriving DecidableEq

/-- The text written to a result file: one line per point, `x`, a tab,
`y`, a newline (`str(p[0]) + '\t' + str(p[1]) + '\n'` per point). -/
def formatPoints (pts : List (ℚ × ℚ)) : String :=
  String.join (pts.map (fun p => toString p.1 ++ "\t" ++ toString p.2 ++ "\n"))

/-- `results_file_name + '_' + str(n_measures + 1)` for measure number `m`
(0-based). -/
def resultFileName (name : String) (m : ℕ) : String :=
  name ++ "_" ++ toString (m + 1)

/-- The inner polling loop
`while cond(i_cursor, v_cursor): adjust; sleep; read i; read v` of a
measurement routine, with `fuel` bounding the number of iterations.  The
`Bool` result is `true` when the loop exited because its condition became
false (within the fuel), `false` when the fuel ran out with the condition
still true (the Python loop would keep running). -/
def pollEvents (cond : ℚ → ℚ → Bool) (adjust : Ev) (readout : ℕ → ℚ × ℚ) :
    ℕ → ℕ → ℚ → ℚ → List Ev × Bool
  | 0, _, i, v => ([], !cond i v)
  | fuel+1, k, i, v =>
    if cond i v then
      let p := readout k
      let r := pollEvents cond adjust readout fuel (k+1) p.1 p.2
      (adjust :: Ev.readReadouts :: r.1, r.2)
    else ([], true)

/-- One iteration of the outer `while n_measures < repeat` loop of a
measurement routine, as the event list it emits for measure `m`:
initialization, `activate_srq`, the polling loop starting from
`i_cursor = 0, v_cursor = 0`, then (if the polling loop exits)
`start_sweep`, `wait_for_srq`, `get_curve`, the file write of the reversed
curve points, and `discard_and_disable_all_events`. -/
def measureBlock (cond : ℚ → ℚ → Bool) (adjust : Ev) (env : Env) (name : String)
    (fuel m : ℕ) : List Ev × Bool :=
  let p := pollEvents cond adjust (env.readouts m) fuel 0 0 0
  if p.2 then
    (Ev.initConf :: Ev.activateSrq :: p.1 ++
      [Ev.startSweepEv, Ev.waitSrq, Ev.readCurve,
       Ev.writeFile (resultFileName name m) (formatPoints ((env.curve m).reverse)),
       Ev.discardEvents], true)
  else
    (Ev.initConf :: Ev.activateSrq :: p.1, false)

/-- The outer loop `while n_measures < repeat` of a measurement routine,
emitting the events of measures `m, m+1, ...` while `rem` measures remain;
a measure whose polling loop does not exit truncates the run (the Python
program would never reach the later statements). -/
def measureLoop (cond : ℚ → ℚ → Bool) (adjust : Ev) (env : Env) (name : String)
    (fuel : ℕ) : ℕ → ℕ → List Ev
  | _, 0 => []
  | m, rem+1 =>
    let b := measureBlock cond adjust env name fuel m
    if b.2 then b.1 ++ measureLoop cond adjust env name fuel (m+1) rem
    else b.1

/-- Polling condition of `measure_IdVd` and `measure_IdVgs`:
`i_cursor < max_i and v_cursor < max_v`. -/
def condMax (max_i max_v : ℚ) : ℚ → ℚ → Bool :=
  fun i v => decide (i < max_i) && decide (v < max_v)

/-- Polling condition of `measure_3Q`:
`i_cursor > min_i and v_cursor > min_v`. -/
def condMin (min_i min_v : ℚ) : ℚ → ℚ → Bool :=
  fun i v => decide (min_i < i) && decide (min_v < v)

/-- `measure_3Q` (lines 425-471): polls while above the minima, adjusting
the collector supply by `increase_collector_supply(1.0)` each iteration. -/
def measure_3Q (env : Env) (min_i min_v : ℚ) (name : String) (rep fuel : ℕ) : List Ev :=
  measureLoop (condMin min_i min_v) (Ev.incCollectorSupply 1) env name fuel 0 rep

/-- `measure_IdVd` (lines 474-519): polls while below the maxima, adjusting
the collector supply by `increase_collector_supply(1.0)` each iteration. -/
def measure_IdVd (env : Env) (max_i max_v : ℚ) (name : String) (rep fuel : ℕ) : List Ev :=
  measureLoop (condMax max_i max_v) (Ev.incCollectorSupply 1) env name fuel 0 rep

/-- `measure_IdVgs` (lines 522-571): polls while below the maxima,
adjusting the step-generator offset by
`vary_stepgen_offset(delta=0.3, limit=limit_stegen_offset)` each
iteration. -/
def measure_IdVgs (env : Env) (max_i max_v limit : ℚ) (name : String) (rep fuel : ℕ) : List Ev :=
  measureLoop (condMax max_i max_v) (Ev.varyOffset (3/10) limit) env name fuel 0 rep

/-- The files a run writes, in order: the `(name, contents)` of each
`writeFile` event. -/
def filesWritten : List Ev → List (String × String)
  | [] => []
  | Ev.writeFile n c :: rest => (n, c) :: filesWritten rest
  | _ :: rest => filesWritten rest

/-- The `(name, contents)` pair of the result file of measure `m`. -/
def fileEntry (env : Env) (name : String) (m : ℕ) : String × String :=
  (resultFileName name m, formatPoints ((env.curve m).reverse))

/-!
Operations of the `TektronixCurveTracer` class as a labelled step relation,
for the determinism claim.  A step `Runs s op (s', ret, raised)` relates a
pre-state to the post-state, the returned value (`some q` for a getter,
`none` for `None`-returning methods) and whether an exception escaped.
Each operation with several code paths gets one constructor per path,
guarded by that path's condition.
-/

/-- The operations of the class (labels of the step relation). -/
inductive Op where
  | opSetPeakPower (pp : ℚ)
  | opGetPeakPower
  | opSetCollectorSupply (v : ℚ)
  | opGetCollectorSupply
  | opChangeCollectorSupply (increase : Bool) (delta : ℚ)
  | opSetHorizontalSensitivity (v : ℚ)
  | opGetHorizontalSensitivity
  | opChangeHorizontalSensitivity (increase : Bool)
  | opSetVerticalSensitivity (v : ℚ)
  | opGetVerticalSensitivity
  | opChangeVerticalSensitivity (increase : Bool)
  | opSetNumberOfSteps (n : ℤ)
  | opGetNumberOfSteps
  | opChangeNumberOfSteps (increase : Bool)
  | opSetStepgenOffset (v : ℚ)
  | opGetStepgenOffset
  | opChangeStepgenOffset (delta : ℚ) (increase : Bool)
  | opSetStepgenStepSize (v : ℚ)
  | opGetStepgenStepSize
  | opChangeStepgenStepSize (increase : Bool)
  | opStartSweep

/-- Step relation of the class's operations (from `src/main.py`): one
constructor per code path.  `change_*_sensitivity` and
`change_stepgen_step_size` have three paths each (value found and
subscript in range; value found and `IndexError` swallowed; value not
found, `ValueError` escapes). -/
inductive Runs : Tek371A → Op → Tek371A × Option ℚ × Bool → Prop where
  | setPeakPowerOk {s pp} (h : pp ∈ VALID_PEAK_POWER) :
      Runs s (.opSetPeakPower pp) ({ s with cs_peakpower := pp }, none, false)
  | setPeakPowerErr {s pp} (h : pp ∉ VALID_PEAK_POWER) :
      Runs s (.opSetPeakPower pp) (s, none, true)
  | getPeakPowerR {s} :
      Runs s .opGetPeakPower (s, some (getPeakPower s), false)
  | setCollectorSupplyR {s v} :
      Runs s (.opSetCollectorSupply v) (setCollectorSupply s v, none, false)
  | getCollectorSupplyR {s} :
      Runs s .opGetCollectorSupply (s, some s.cs_collector_supply, false)
  | changeCollectorSupplyR {s inc d} :
      Runs s (.opChangeCollectorSupply inc d) (changeCollectorSupply s inc d, none, false)
  | setHorizontalSensitivityR {s v} :
      Runs s (.opSetHorizontalSensitivity v) (setHorizontalSensitivity s v, none, false)
  | getHorizontalSensitivityR {s} :
      Runs s .opGetHorizontalSensitivity (s, some (getHorizontalSensitivity s), false)
  | changeHorizontalFound {s inc i v}
      (h1 : pyIndex (validHorizontalSensitivities s) (getHorizontalSensitivity s) = some i)
      (h2 : pyGet (validHorizontalSensitivities s)
              (if inc then (i : ℤ) - 1 else (i : ℤ) + 1) = some v) :
      Runs s (.opChangeHorizontalSensitivity inc) (setHorizontalSensitivity s v, none, false)
  | changeHorizontalOut {s inc i}
      (h1 : pyIndex (validHorizontalSensitivities s) (getHorizontalSensitivity s) = some i)
      (h2 : pyGet (validHorizontalSensitivities s)
              (if inc then (i : ℤ) - 1 else (i : ℤ) + 1) = none) :
      Runs s (.opChangeHorizontalSensitivity inc) (s, none, false)
  | changeHorizontalNotFound {s inc}
      (h1 : pyIndex (validHorizontalSensitivities s) (getHorizontalSensitivity s) = none) :
      Runs s (.opChangeHorizontalSensitivity inc) (s, none, true)
  | setVerticalSensitivityR {s v} :
      Runs s (.opSetVerticalSensitivity v) (setVerticalSensitivity s v, none, false)
  | getVerticalSensitivityR {s} :
      Runs s .opGetVerticalSensitivity (s, some (getVerticalSensitivity s), false)
  | changeVerticalFound {s inc i v}
      (h1 : pyIndex (validVerticalSensitivities s) (getVerticalSensitivity s) = some i)
      (h2 : pyGet (validVerticalSensitivities s)
              (if inc then (i : ℤ) - 1 else (i : ℤ) + 1) = some v) :
      Runs s (.opChangeVerticalSensitivity inc) (setVerticalSensitivity s v, none, false)
  | changeVerticalOut {s inc i}
      (h1 : pyIndex (validVerticalSensitivities s) (getVerticalSensitivity s) = some i)
      (h2 : pyGet (validVerticalSensitivities s)
              (if inc then (i : ℤ) - 1 else (i : ℤ) + 1) = none) :
      Runs s (.opChangeVerticalSensitivity inc) (s, none, false)
  | changeVerticalNotFound {s inc}
      (h1 : pyIndex (validVerticalSensitivities s) (getVerticalSensitivity s) = none) :
      Runs s (.opChangeVerticalSensitivity inc) (s, none, true)
  | setNumberOfStepsR {s n} :
      Runs s (.opSetNumberOfSteps n) (setNumberOfSteps s n, none, false)
  | getNumberOfStepsR {s} :
      Runs s .opGetNumberOfSteps (s, some (s.stepgen_number_steps : ℚ), false)
  | changeNumberOfStepsR {s inc} :
      Runs s (.opChangeNumberOfSteps inc) (changeNumberOfSteps s inc, none, false)
  | setStepgenOffsetR {s v} :
      Runs s (.opSetStepgenOffset v) (setStepgenOffset s v, none, false)
  | getStepgenOffsetR {s} :
      Runs s .opGetStepgenOffset (s, some (getStepgenOffset s), false)
  | changeStepgenOffsetR {s d inc} :
      Runs s (.opChangeStepgenOffset d inc) (changeStepgenOffset s d inc, none, false)
  | setStepgenStepSizeR {s v} :
      Runs s (.opSetStepgenStepSize v) (setStepgenStepSize s v, none, false)
  | getStepgenStepSizeR {s} :
      Runs s .opGetStepgenStepSize (s, some (getStepgenStepSize s), false)
  | changeStepgenStepSizeFound {s inc i v}
      (h1 : pyIndex (validStepgenStepSizes s) (getStepgenStepSize s) = some i)
      (h2 : pyGet (validStepgenStepSizes s)
              ((if inc then (if i = (validStepgenStepSizes s).length - 1 then i else i + 1)
                else (if i = 0 then i else i - 1) : ℕ) : ℤ) = some v) :
      Runs s (.opChangeStepgenStepSize inc) (setStepgenStepSize s v, none, false)
  | changeStepgenStepSizeOut {s inc i}
      (h1 : pyIndex (validStepgenStepSizes s) (getStepgenStepSize s) = some i)
      (h2 : pyGet (validStepgenStepSizes s)
              ((if inc then (if i = (validStepgenStepSizes s).length - 1 then i else i + 1)
                else (if i = 0 then i else i - 1) : ℕ) : ℤ) = none) :
      Runs s (.opChangeStepgenStepSize inc) (s, none, false)
  | changeStepgenStepSizeNotFound {s inc}
      (h1 : pyIndex (validStepgenStepSizes s) (getStepgenStepSize s) = none) :
      Runs s (.opChangeStepgenStepSize inc) (s, none, true)
  | startSweepR {s} :
      Runs s .opStartSweep (startSweep s, none, false)

/-- A demonstration state: peak power 300, horizontal source COLLECT,
horizontal sensitivity 1 with valid table `[1, 2, 3]` for every source and
peak power, vertical sensitivity 2 with the same table, step size 5 with
valid table `[5, 10, 20]`. -/
def sDemo : Tek371A where
  cs_peakpower := 300
  cs_polarity := "POS"
  cs_collector_supply := 0
  stepgen_source := "VOLTAGE"
  stepgen_step_size := 5
  stepgen_number_steps := 0
  stepgen_offset := 0
  display_store_mode := "STO"
  display_h_source := "COLLECT"
  display_h_sens := 1
  display_v_source := "COLLECT"
  display_v_sens := 2
  cursor_mode := "DOT"
  cursor_pos := 1
  measure_mode := "REP"
  hSensTable := fun _ _ => [1, 2, 3]
  vSensTable := fun _ _ => [1, 2, 3]
  stepSizeTable := fun _ _ => [5, 10, 20]

/-! Helper lemmas about the Python primitives. -/

theorem pyIndex_mem {xs : List ℚ} {x : ℚ} {i : ℕ} (h : pyIndex xs x = some i) :
    xs[i]? = some x := by
  induction xs generalizing i with
  | nil => simp [pyIndex] at h
  | cons y ys ih =>
    by_cases hyx : y = x
    · simp only [pyIndex, if_pos hyx, Option.some.injEq] at h
      subst hyx
      simp [← h]
    · simp only [pyIndex, if_neg hyx, Option.map_eq_some'] at h
      obtain ⟨j, hj, rfl⟩ := h
      simpa using ih hj

theorem pyIndex_lt_length {xs : List ℚ} {x : ℚ} {i : ℕ} (h : pyIndex xs x = some i) :
    i < xs.length := by
  have := pyIndex_mem h
  exact (List.getElem?_eq_some.mp this).1

theorem pyIndex_first {xs : List ℚ} {x : ℚ} {i : ℕ} (h : pyIndex xs x = some i) :
    ∀ j, j < i → xs[j]? ≠ some x := by
  induction xs generalizing i with
  | nil => simp [pyIndex] at h
  | cons y ys ih =>
    by_cases hyx : y = x
    · simp only [pyIndex, if_pos hyx, Option.some.injEq] at h
      omega
    · simp only [pyIndex, if_neg hyx, Option.map_eq_some'] at h
      obtain ⟨j0, hj0, rfl⟩ := h
      intro j hj
      cases j with
      | zero => simpa using hyx
      | succ j1 => simpa using ih hj0 j1 (by omega)

theorem pyGet_nat (xs : List ℚ) (n : ℕ) : pyGet xs (n : ℤ) = xs[n]? := by
  have h0 : ¬ ((n : ℤ) < 0) := by omega
  simp only [pyGet, h0, if_false]
  by_cases h : n < xs.length
  · rw [dif_pos ⟨by omega, by omega⟩]
    simp [List.getElem?_eq_getElem h, List.get_eq_getElem]
  · rw [dif_neg (by omega)]
    rw [List.getElem?_eq_none (by omega)]

theorem pyGet_neg_one {xs : List ℚ} (h : xs ≠ []) :
    pyGet xs (-1) = xs[xs.length - 1]? := by
  have hlen : 0 < xs.length := List.length_pos.mpr h
  have h0 : ((-1 : ℤ) < 0) := by omega
  simp only [pyGet, h0, if_true]
  rw [dif_pos ⟨by omega, by omega⟩]
  have : ((-1 : ℤ) + xs.length).toNat = xs.length - 1 := by omega
  rw [List.getElem?_eq_getElem (by omega)]
  simp [List.get_eq_getElem, this]

/-!
Claim C1.
-/

/-- C1 as stated is false: in `sDemo` the current horizontal sensitivity
`1` is the first element of the valid table `[1, 2, 3]`, yet
`change_horizontal_sensitivity(increase=True)` does not leave it
unchanged — `new_index = -1` and Python's negative indexing selects the
last element `3`. -/
theorem C1_counterexample :
    getHorizontalSensitivity sDemo ∈ validHorizontalSensitivities sDemo ∧
    (validHorizontalSensitivities sDemo).head? = some (getHorizontalSensitivity sDemo) ∧
    getHorizontalSensitivity sDemo = 1 ∧
    (changeHorizontalSensitivity sDemo true).map getHorizontalSensitivity = some 3 ∧
    (3 : ℚ) ≠ 1 := by
  decide

/-- C1 (amended): when the current horizontal (resp. vertical) sensitivity
occurs in the valid table at first-occurrence index `i`,
`change_horizontal_sensitivity` (resp. vertical) with `increase=True` moves
to index `i - 1` when `i > 0` and wraps to the LAST element when `i = 0`
(Python negative indexing); with `increase=False` it moves to index `i + 1`
when that is in range and leaves the state unchanged when `i` is the last
index (the `IndexError` is swallowed). -/
theorem C1_sensitivity_step_amended (s : Tek371A) :
    (∀ i, pyIndex (validHorizontalSensitivities s) (getHorizontalSensitivity s) = some i →
      (changeHorizontalSensitivity s true =
        ((validHorizontalSensitivities s)[if i = 0 then (validHorizontalSensitivities s).length - 1
            else i - 1]?).map (fun v => setHorizontalSensitivity s v)) ∧
      (changeHorizontalSensitivity s false =
        some (((validHorizontalSensitivities s)[i+1]?).elim s
          (fun v => setHorizontalSensitivity s v))) ∧
      (i + 1 = (validHorizontalSensitivities s).length →
        changeHorizontalSensitivity s false = some s)) ∧
    (∀ i, pyIndex (validVerticalSensitivities s) (getVerticalSensitivity s) = some i →
      (changeVerticalSensitivity s true =
        ((validVerticalSensitivities s)[if i = 0 then (validVerticalSensitivities s).length - 1
            else i - 1]?).map (fun v => setVerticalSensitivity s v)) ∧
      (changeVerticalSensitivity s false =
        some (((validVerticalSensitivities s)[i+1]?).elim s
          (fun v => setVerticalSensitivity s v))) ∧
      (i + 1 = (validVerticalSensitivities s).length →
        changeVerticalSensitivity s false = some s)) := by
  constructor
  · intro i hi
    have hlen := pyIndex_lt_length hi
    have hne : validHorizontalSensitivities s ≠ [] := by
      intro hnil
      rw [hnil] at hlen
      simp at hlen
    refine ⟨?_, ?_, ?_⟩
    · simp only [changeHorizontalSensitivity, hi, if_true]
      by_cases h0 : i = 0
      · subst h0
        have hm1 : ((0 : ℕ) : ℤ) - 1 = -1 := rfl
        rw [hm1, pyGet_neg_one hne, if_pos rfl,
          List.getElem?_eq_getElem (by omega : (validHorizontalSensitivities s).length - 1
            < (validHorizontalSensitivities s).length)]
        simp
      · have hc : ((i : ℤ) - 1) = ((i - 1 : ℕ) : ℤ) := by omega
        rw [hc, pyGet_nat, if_neg h0,
          List.getElem?_eq_getElem (by omega : i - 1 < (validHorizontalSensitivities s).length)]
        simp
    · simp only [changeHorizontalSensitivity, hi, Bool.false_eq_true, if_false]
      have hc : ((i : ℤ) + 1) = ((i + 1 : ℕ) : ℤ) := by omega
      rw [hc, pyGet_nat]
      by_cases h1 : i + 1 < (validHorizontalSensitivities s).length
      · rw [List.getElem?_eq_getElem h1]
        simp
      · rw [List.getElem?_eq_none (by omega)]
        simp
    · intro hlast
      simp only [changeHorizontalSensitivity, hi, Bool.false_eq_true, if_false]
      have hc : ((i : ℤ) + 1) = ((i + 1 : ℕ) : ℤ) := by omega
      rw [hc, pyGet_nat, List.getElem?_eq_none (by omega)]
  · intro i hi
    have hlen := pyIndex_lt_length hi
    have hne : validVerticalSensitivities s ≠ [] := by
      intro hnil
      rw [hnil] at hlen
      simp at hlen
    refine ⟨?_, ?_, ?_⟩
    · simp only [changeVerticalSensitivity, hi, if_true]
      by_cases h0 : i = 0
      · subst h0
        have hm1 : ((0 : ℕ) : ℤ) - 1 = -1 := rfl
        rw [hm1, pyGet_neg_one hne, if_pos rfl,
          List.getElem?_eq_getElem (by omega : (validVerticalSensitivities s).length - 1
            < (validVerticalSensitivities s).length)]
        simp
      · have hc : ((i : ℤ) - 1) = ((i - 1 : ℕ) : ℤ) := by omega
        rw [hc, pyGet_nat, if_neg h0,
          List.getElem?_eq_getElem (by omega : i - 1 < (validVerticalSensitivities s).length)]
        simp
    · simp only [changeVerticalSensitivity, hi, Bool.false_eq_true, if_false]
      have hc : ((i : ℤ) + 1) = ((i + 1 : ℕ) : ℤ) := by omega
      rw [hc, pyGet_nat]
      by_cases h1 : i + 1 < (validVerticalSensitivities s).length
      · rw [List.getElem?_eq_getElem h1]
        simp
      · rw [List.getElem?_eq_none (by omega)]
        simp
    · intro hlast
      simp only [changeVerticalSensitivity, hi, Bool.false_eq_true, if_false]
      have hc : ((i : ℤ) + 1) = ((i + 1 : ℕ) : ℤ) := by omega
      rw [hc, pyGet_nat, List.getElem?_eq_none (by omega)]

/-- Witness for `C1_sensitivity_step_amended` at the concrete state
`sDemo`: the current horizontal sensitivity `1` is at index 0 of
`[1, 2, 3]`, and increasing wraps to the last element `3`; the vertical
sensitivity `2` is at index 1, and increasing moves to `1`. -/
theorem C1_sensitivity_step_amended_witness :
    (pyIndex (validHorizontalSensitivities sDemo) (getHorizontalSensitivity sDemo) = some 0 ∧
      changeHorizontalSensitivity sDemo true =
        ((validHorizontalSensitivities sDemo)[if (0 : ℕ) = 0
            then (validHorizontalSensitivities sDemo).length - 1 else 0 - 1]?).map
          (fun v => setHorizontalSensitivity sDemo v)) ∧
    (pyIndex (validVerticalSensitivities sDemo) (getVerticalSensitivity sDemo) = some 1 ∧
      changeVerticalSensitivity sDemo true =
        ((validVerticalSensitivities sDemo)[if (1 : ℕ) = 0
            then (validVerticalSensitivities sDemo).length - 1 else 1 - 1]?).map
          (fun v => setVerticalSensitivity sDemo v)) :=
  ⟨⟨by decide, ((C1_sensitivity_step_amended sDemo).1 0 (by decide)).1⟩,
   ⟨by decide, ((C1_sensitivity_step_amended sDemo).2 1 (by decide)).1⟩⟩

/-!
Claim C2.
-/

/-- C2: when the current step-generator step size occurs in the valid
step-size table, `change_stepgen_step_size` finds its first occurrence by
linear search, moves to the neighbouring entry, and clamps at both array
bounds: `increase=True` at the last index and `increase=False` at index 0
leave the state unchanged. -/
theorem C2_stepgen_step_size (s : Tek371A) (inc : Bool) (i : ℕ)
    (hi : pyIndex (validStepgenStepSizes s) (getStepgenStepSize s) = some i) :
    (validStepgenStepSizes s)[i]? = some (getStepgenStepSize s) ∧
    (∀ j, j < i → (validStepgenStepSizes s)[j]? ≠ some (getStepgenStepSize s)) ∧
    changeStepgenStepSize s inc =
      ((validStepgenStepSizes s)[if inc
          then (if i = (validStepgenStepSizes s).length - 1 then i else i + 1)
          else (if i = 0 then i else i - 1)]?).map (fun v => setStepgenStepSize s v) ∧
    (((inc = true ∧ i = (validStepgenStepSizes s).length - 1) ∨ (inc = false ∧ i = 0)) →
      changeStepgenStepSize s inc = some s) := by
  have hlen := pyIndex_lt_length hi
  have hmem := pyIndex_mem hi
  have hidx : (if inc then (if i = (validStepgenStepSizes s).length - 1 then i else i + 1)
      else (if i = 0 then i else i - 1)) < (validStepgenStepSizes s).length := by
    cases inc <;> simp only [if_true, if_false, Bool.false_eq_true] <;> split <;> omega
  have hmain : changeStepgenStepSize s inc =
      ((validStepgenStepSizes s)[if inc
          then (if i = (validStepgenStepSizes s).length - 1 then i else i + 1)
          else (if i = 0 then i else i - 1)]?).map (fun v => setStepgenStepSize s v) := by
    simp only [changeStepgenStepSize, hi]
    rw [pyGet_nat, List.getElem?_eq_getElem hidx]
    simp
  refine ⟨hmem, pyIndex_first hi, hmain, ?_⟩
  rintro (⟨hinc, hlast⟩ | ⟨hinc, h0⟩) <;> subst hinc
  · rw [hmain]
    simp only [if_true, if_pos hlast]
    rw [hmem]
    rfl
  · rw [hmain]
    simp only [Bool.false_eq_true, if_false, if_pos h0]
    rw [hmem]
    rfl

/-- Witness for `C2_stepgen_step_size` at `sDemo`: the step size `5` is at
index 0 of `[5, 10, 20]`, and a decrease clamps there, leaving the state
unchanged. -/
theorem C2_stepgen_step_size_witness :
    pyIndex (validStepgenStepSizes sDemo) (getStepgenStepSize sDemo) = some 0 ∧
    changeStepgenStepSize sDemo false = some sDemo :=
  ⟨by decide, (C2_stepgen_step_size sDemo false 0 (by decide)).2.2.2 (Or.inr ⟨rfl, rfl⟩)⟩

/-!
Claim C3.
-/

/-- C3: `change_collector_supply` adds the raw `delta` argument to the
prior collector supply, ignoring both the `increase` flag and the
`COLLECTOR_SUPPLY_RESOLUTION` floor (the computed `_delta` is dead code):
in particular `decrease_collector_supply` with a positive delta raises the
supply, and a delta below `0.1` is applied as given. -/
theorem C3_collector_supply_raw_delta (s : Tek371A) (increase : Bool) (delta : ℚ) :
    changeCollectorSupply s increase delta =
      setCollectorSupply s (s.cs_collector_supply + delta) ∧
    (0 < delta →
      s.cs_collector_supply < (decreaseCollectorSupply s delta).cs_collector_supply) ∧
    (delta < COLLECTOR_SUPPLY_RESOLUTION →
      (changeCollectorSupply s increase delta).cs_collector_supply =
        s.cs_collector_supply + delta) := by
  refine ⟨rfl, ?_, fun _ => rfl⟩
  intro hd
  show s.cs_collector_supply < s.cs_collector_supply + delta
  linarith

/-- Witness for `C3_collector_supply_raw_delta` at `sDemo` with
`delta = 1/20 < 0.1`: decreasing still raises the supply by the raw
delta. -/
theorem C3_collector_supply_raw_delta_witness :
    sDemo.cs_collector_supply <
      (decreaseCollectorSupply sDemo (1/20)).cs_collector_supply ∧
    (changeCollectorSupply sDemo false (1/20)).cs_collector_supply =
      sDemo.cs_collector_supply + 1/20 :=
  ⟨(C3_collector_supply_raw_delta sDemo false (1/20)).2.1 (by norm_num),
   (C3_collector_supply_raw_delta sDemo false (1/20)).2.2 (by
      norm_num [COLLECTOR_SUPPLY_RESOLUTION])⟩

/-!
Claim C7.
-/

/-- C7: the two copies of `change_stepgen_step_size`, translated
independently from `src/main.py` and `src/sinusoidal_cycling_caract.py`,
are behaviourally equivalent: the same state and flag give the same result
(hence the same resulting step-size setting). -/
theorem C7_stepsize_copies_equivalent (s : Tek371A) (increase : Bool) :
    changeStepgenStepSize s increase = changeStepgenStepSize_scc s increase := rfl

/-!
Claim C8.
-/

/-- C8: `set_peak_power` raises exactly when its argument is neither 300
nor 3000; when it raises, the whole instrument state is unchanged; when the
argument is 300 or 3000 the peak-power setting becomes that value and
nothing else changes. -/
theorem C8_set_peak_power (s : Tek371A) (pp : ℚ) :
    ((setPeakPower s pp).2 = true ↔ (pp ≠ 300 ∧ pp ≠ 3000)) ∧
    ((setPeakPower s pp).2 = true → (setPeakPower s pp).1 = s) ∧
    ((pp = 300 ∨ pp = 3000) →
      (setPeakPower s pp).1 = { s with cs_peakpower := pp }) := by
  by_cases h : pp ∈ VALID_PEAK_POWER
  · have hval : pp = 300 ∨ pp = 3000 := by
      simpa [VALID_PEAK_POWER] using h
    rw [setPeakPower, if_neg (not_not.mpr h)]
    refine ⟨?_, ?_, fun _ => rfl⟩
    · simp only [Bool.false_eq_true, false_iff, not_and_or, not_not]
      rcases hval with h3 | h3
      · exact Or.inl h3
      · exact Or.inr h3
    · intro hfalse
      simp at hfalse
  · have h300 : pp ≠ 300 := fun he => h (by simp [VALID_PEAK_POWER, he])
    have h3000 : pp ≠ 3000 := fun he => h (by simp [VALID_PEAK_POWER, he])
    rw [setPeakPower, if_pos h]
    refine ⟨by simp [h300, h3000], fun _ => rfl, ?_⟩
    rintro (he | he) <;> exact absurd (by simp [VALID_PEAK_POWER, he]) h

/-- Witness for `C8_set_peak_power`: setting 3000 on `sDemo` succeeds and
only changes the peak power; setting 500 raises and leaves the state
unchanged. -/
theorem C8_set_peak_power_witness :
    (setPeakPower sDemo 3000).1 = { sDemo with cs_peakpower := 3000 } ∧
    ((setPeakPower sDemo 500).2 = true ↔ ((500 : ℚ) ≠ 300 ∧ (500 : ℚ) ≠ 3000)) ∧
    ((setPeakPower sDemo 500).2 = true → (setPeakPower sDemo 500).1 = sDemo) :=
  ⟨(C8_set_peak_power sDemo 3000).2.2 (Or.inr rfl),
   (C8_set_peak_power sDemo 500).1,
   (C8_set_peak_power sDemo 500).2.1⟩

/-!
Claim C9.
-/

/-- A state whose step-generator step size is negative (`-100`): here
`max(round(-0.01 * step, 3), abs(delta))` exceeds `abs(delta)`. -/
def sNegStep : Tek371A :=
  { sDemo with stepgen_step_size := -100 }

/-- C9 as stated is false: from `sNegStep` (offset 0, step size -100,
limit 10, so the limit check passes), `vary_stepgen_offset` with
`delta = 0.3` moves the offset by `max(round(1.0, 3), 0.3) = 1`, not by
`abs(delta) = 0.3`. -/
theorem C9_counterexample :
    |pyRound (getStepgenOffset sNegStep) 2| < |(10 : ℚ)| ∧
    (varyStepgenOffset sNegStep (3/10) 10).stepgen_offset =
      sNegStep.stepgen_offset + 1 ∧
    sNegStep.stepgen_offset + 1 ≠ sNegStep.stepgen_offset + |(3/10 : ℚ)| := by
  refine ⟨?_, ?_, ?_⟩
  · show |pyRound 0 2| < |(10 : ℚ)|
    norm_num [pyRound, roundHalfEven]
  · have habs : |(3 : ℚ)/10| = 3/10 := abs_of_pos (by norm_num)
    show (varyStepgenOffset sNegStep (3/10) 10).stepgen_offset = 0 + 1
    rw [varyStepgenOffset, if_neg (by norm_num)]
    rw [changeStepgenOffsetPrivate]
    norm_num [pyRound, roundHalfEven, getStepgenOffset, getStepgenStepSize, sNegStep, sDemo,
      STEPGEN_OFFSET_RESOLUTION, setStepgenOffset, habs]
  · have habs : |(3 : ℚ)/10| = 3/10 := abs_of_pos (by norm_num)
    show (0 : ℚ) + 1 ≠ 0 + |(3/10 : ℚ)|
    rw [habs]
    norm_num

/-- C9 (amended): `vary_stepgen_offset` leaves the state unchanged once
`|round(offset, 2)| ≥ |limit|`; otherwise it changes the offset by exactly
`max(round(-0.01 * step_size, 3), abs(delta))` — adding it when
`delta > 0` and subtracting it when `delta ≤ 0`.  This equals `abs(delta)`
whenever `round(-0.01 * step_size, 3) ≤ abs(delta)`, in particular for
every nonnegative step size. -/
theorem C9_vary_offset_amended (s : Tek371A) (delta limit : ℚ) :
    (|pyRound (getStepgenOffset s) 2| ≥ |limit| →
      varyStepgenOffset s delta limit = s) ∧
    (|pyRound (getStepgenOffset s) 2| < |limit| →
      (varyStepgenOffset s delta limit).stepgen_offset =
        s.stepgen_offset + (if delta ≤ 0 then -1 else 1) *
          max (pyRound (-STEPGEN_OFFSET_RESOLUTION * getStepgenStepSize s) 3) |delta|) ∧
    (|pyRound (getStepgenOffset s) 2| < |limit| →
      pyRound (-STEPGEN_OFFSET_RESOLUTION * getStepgenStepSize s) 3 ≤ |delta| →
      (varyStepgenOffset s delta limit).stepgen_offset =
        s.stepgen_offset + (if delta ≤ 0 then -|delta| else |delta|)) := by
  have hguard : (-|limit| ≥ pyRound (getStepgenOffset s) 2 ∨
      pyRound (getStepgenOffset s) 2 ≥ |limit|) ↔
      |pyRound (getStepgenOffset s) 2| ≥ |limit| := by
    rcases abs_cases (pyRound (getStepgenOffset s) 2) with ⟨he, hs⟩ | ⟨he, hs⟩ <;>
      constructor
    · rintro (h | h) <;> simp only [ge_iff_le] at h ⊢ <;> linarith [abs_nonneg limit]
    · intro h
      right
      simp only [ge_iff_le] at h ⊢
      linarith
    · rintro (h | h) <;> simp only [ge_iff_le] at h ⊢ <;> linarith [abs_nonneg limit]
    · intro h
      left
      simp only [ge_iff_le] at h ⊢
      linarith
  refine ⟨?_, ?_, ?_⟩
  · intro hge
    rw [varyStepgenOffset]
    split <;>
      · rw [changeStepgenOffsetPrivate, if_pos (hguard.mpr hge)]
  · intro hlt
    have hng : ¬ (-|limit| ≥ pyRound (getStepgenOffset s) 2 ∨
        pyRound (getStepgenOffset s) 2 ≥ |limit|) := by
      rw [hguard]
      linarith
    rw [varyStepgenOffset]
    split
    · rw [changeStepgenOffsetPrivate, if_neg hng]
      show s.stepgen_offset + -(max (pyRound (-STEPGEN_OFFSET_RESOLUTION *
        getStepgenStepSize s) 3) |delta|) = _
      ring
    · rw [changeStepgenOffsetPrivate, if_neg hng]
      show s.stepgen_offset + max (pyRound (-STEPGEN_OFFSET_RESOLUTION *
        getStepgenStepSize s) 3) |delta| = _
      ring
  · intro hlt hle
    have hng : ¬ (-|limit| ≥ pyRound (getStepgenOffset s) 2 ∨
        pyRound (getStepgenOffset s) 2 ≥ |limit|) := by
      rw [hguard]
      linarith
    have hmax : max (pyRound (-STEPGEN_OFFSET_RESOLUTION * getStepgenStepSize s) 3) |delta|
        = |delta| := max_eq_right hle
    rw [varyStepgenOffset]
    split
    · rw [changeStepgenOffsetPrivate, if_neg hng]
      show s.stepgen_offset + -(max (pyRound (-STEPGEN_OFFSET_RESOLUTION *
        getStepgenStepSize s) 3) |delta|) = _
      rw [hmax]
    · rw [changeStepgenOffsetPrivate, if_neg hng]
      show s.stepgen_offset + max (pyRound (-STEPGEN_OFFSET_RESOLUTION *
        getStepgenStepSize s) 3) |delta| = _
      rw [hmax]

/-- Witness for `C9_vary_offset_amended` at `sDemo` (offset 0, step size 5,
limit 10, delta 0.3): not at the limit, so the offset moves by exactly
`abs(0.3)`. -/
theorem C9_vary_offset_amended_witness :
    (varyStepgenOffset sDemo (3/10) 10).stepgen_offset =
      sDemo.stepgen_offset + (if (3/10 : ℚ) ≤ 0 then -|(3/10 : ℚ)| else |(3/10 : ℚ)|) :=
  (C9_vary_offset_amended sDemo (3/10) 10).2.2
    (by norm_num [pyRound, roundHalfEven, getStepgenOffset, sDemo])
    (by
      have habs : |(3 : ℚ)/10| = 3/10 := abs_of_pos (by norm_num)
      norm_num [pyRound, roundHalfEven, getStepgenStepSize, sDemo,
        STEPGEN_OFFSET_RESOLUTION, habs])

/-!
Claim C10.
-/

/-- C10: the step relation of the class's operations is deterministic: a
state and an operation determine the resulting state, return value and
exception flag.  The relation has one constructor per code path; paths of
the same operation are guarded by mutually exclusive conditions. -/
theorem C10_operations_deterministic (s : Tek371A) (op : Op)
    (r1 r2 : Tek371A × Option ℚ × Bool) (h1 : Runs s op r1) (h2 : Runs s op r2) :
    r1 = r2 := by
  cases h1 <;> cases h2 <;> simp_all

/-- Witness for `C10_operations_deterministic`: two runs of
`set_peak_power(300)` from `sDemo` agree. -/
theorem C10_operations_deterministic_witness :
    (({ sDemo with cs_peakpower := 300 }, (none : Option ℚ), false) :
        Tek371A × Option ℚ × Bool) =
      ({ sDemo with cs_peakpower := 300 }, (none : Option ℚ), false) :=
  C10_operations_deterministic sDemo (.opSetPeakPower 300) _ _
    (Runs.setPeakPowerOk (by decide)) (Runs.setPeakPowerOk (by decide))

/-! Helper lemmas about the trace model. -/

theorem filesWritten_append (a b : List Ev) :
    filesWritten (a ++ b) = filesWritten a ++ filesWritten b := by
  induction a with
  | nil => rfl
  | cons e rest ih => cases e <;> simp [filesWritten, ih]

theorem pollEvents_mem (c : ℚ → ℚ → Bool) (a : Ev) (rdo : ℕ → ℚ × ℚ) :
    ∀ fuel k i v, ∀ e ∈ (pollEvents c a rdo fuel k i v).1,
      e = a ∨ e = Ev.readReadouts := by
  intro fuel
  induction fuel with
  | zero =>
    intro k i v e he
    simp [pollEvents] at he
  | succ n ih =>
    intro k i v e he
    simp only [pollEvents] at he
    split at he
    · simp only [List.mem_cons] at he
      rcases he with rfl | rfl | he
      · exact Or.inl rfl
      · exact Or.inr rfl
      · exact ih _ _ _ e he
    · simp at he

theorem filesWritten_of_no_write (l : List Ev)
    (h : ∀ e ∈ l, ∀ nm ct, e ≠ Ev.writeFile nm ct) : filesWritten l = [] := by
  induction l with
  | nil => rfl
  | cons e rest ih =>
    have he := h e (List.mem_cons_self e rest)
    have hrest : ∀ e2 ∈ rest, ∀ nm ct, e2 ≠ Ev.writeFile nm ct :=
      fun e2 he2 => h e2 (List.mem_cons_of_mem e he2)
    cases e with
    | writeFile nm ct => exact absurd rfl (he nm ct)
    | initConf => exact ih hrest
    | activateSrq => exact ih hrest
    | incCollectorSupply d => exact ih hrest
    | varyOffset d l2 => exact ih hrest
    | readReadouts => exact ih hrest
    | startSweepEv => exact ih hrest
    | waitSrq => exact ih hrest
    | readCurve => exact ih hrest
    | discardEvents => exact ih hrest

theorem filesWritten_pollEvents (c : ℚ → ℚ → Bool) (a : Ev) (rdo : ℕ → ℚ × ℚ)
    (fuel k : ℕ) (i v : ℚ) (ha : ∀ nm ct, a ≠ Ev.writeFile nm ct) :
    filesWritten (pollEvents c a rdo fuel k i v).1 = [] := by
  apply filesWritten_of_no_write
  intro e he nm ct
  rcases pollEvents_mem c a rdo fuel k i v e he with rfl | rfl
  · exact ha nm ct
  · intro hcontra
    cases hcontra

/-- The shape of a completed measurement block: initialization events, a
polling phase made only of source adjustments and readouts, then the
sweep start, the srq wait, the curve read, the file write and the event
discard — in that order. -/
def blockShaped (adjust : Ev) (nm contents : String) (l : List Ev) : Prop :=
  ∃ p, l = Ev.initConf :: Ev.activateSrq :: p ++
      [Ev.startSweepEv, Ev.waitSrq, Ev.readCurve, Ev.writeFile nm contents,
       Ev.discardEvents] ∧
    ∀ e ∈ p, e = adjust ∨ e = Ev.readReadouts

theorem measureBlock_complete (c : ℚ → ℚ → Bool) (a : Ev) (env : Env) (name : String)
    (fuel m : ℕ) (hc : (pollEvents c a (env.readouts m) fuel 0 0 0).2 = true) :
    (measureBlock c a env name fuel m).2 = true ∧
    (measureBlock c a env name fuel m).1 =
      Ev.initConf :: Ev.activateSrq :: (pollEvents c a (env.readouts m) fuel 0 0 0).1 ++
        [Ev.startSweepEv, Ev.waitSrq, Ev.readCurve,
         Ev.writeFile (resultFileName name m) (formatPoints ((env.curve m).reverse)),
         Ev.discardEvents] := by
  refine ⟨?_, ?_⟩
  · rw [measureBlock, if_pos hc]
  · rw [measureBlock, if_pos hc]

theorem measureBlock_shape (c : ℚ → ℚ → Bool) (a : Ev) (env : Env) (name : String)
    (fuel m : ℕ) (hc : (pollEvents c a (env.readouts m) fuel 0 0 0).2 = true) :
    blockShaped a (resultFileName name m) (formatPoints ((env.curve m).reverse))
      (measureBlock c a env name fuel m).1 :=
  ⟨(pollEvents c a (env.readouts m) fuel 0 0 0).1,
    (measureBlock_complete c a env name fuel m hc).2,
    pollEvents_mem c a (env.readouts m) fuel 0 0 0⟩

theorem measureBlock_files (c : ℚ → ℚ → Bool) (a : Ev) (env : Env) (name : String)
    (fuel m : ℕ) (hc : (pollEvents c a (env.readouts m) fuel 0 0 0).2 = true)
    (ha : ∀ nm ct, a ≠ Ev.writeFile nm ct) :
    filesWritten (measureBlock c a env name fuel m).1 = [fileEntry env name m] := by
  rw [(measureBlock_complete c a env name fuel m hc).2]
  show filesWritten ((pollEvents c a (env.readouts m) fuel 0 0 0).1 ++ _) = _
  rw [filesWritten_append, filesWritten_pollEvents c a (env.readouts m) fuel 0 0 0 ha]
  rfl

theorem measureLoop_files (c : ℚ → ℚ → Bool) (a : Ev) (env : Env) (name : String)
    (fuel : ℕ) (ha : ∀ nm ct, a ≠ Ev.writeFile nm ct) :
    ∀ rem m,
      (∀ j, j < rem → (pollEvents c a (env.readouts (m + j)) fuel 0 0 0).2 = true) →
      filesWritten (measureLoop c a env name fuel m rem) =
        (List.range rem).map (fun j => fileEntry env name (m + j)) := by
  intro rem
  induction rem with
  | zero =>
    intro m h
    rfl
  | succ n ih =>
    intro m h
    have h0 : (pollEvents c a (env.readouts m) fuel 0 0 0).2 = true := by
      simpa using h 0 (by omega)
    rw [measureLoop]
    rw [if_pos ((measureBlock_complete c a env name fuel m h0).1)]
    rw [filesWritten_append, measureBlock_files c a env name fuel m h0 ha,
      ih (m + 1) (fun j hj => by simpa [Nat.add_assoc] using h (1 + j) (by omega))]
    have hfun : ((fun j => fileEntry env name (m + j)) ∘ Nat.succ) =
        (fun j => fileEntry env name (m + 1 + j)) := by
      funext j
      simp only [Function.comp_apply, Nat.succ_eq_add_one]
      congr 1
      omega
    rw [List.range_succ_eq_map, List.map_cons, List.map_map, hfun]
    simp only [Nat.add_zero, List.singleton_append]

theorem measureLoop_flatten (c : ℚ → ℚ → Bool) (a : Ev) (env : Env) (name : String)
    (fuel : ℕ) :
    ∀ rem m,
      (∀ j, j < rem → (pollEvents c a (env.readouts (m + j)) fuel 0 0 0).2 = true) →
      measureLoop c a env name fuel m rem =
        ((List.range rem).map (fun j => (measureBlock c a env name fuel (m + j)).1)).flatten := by
  intro rem
  induction rem with
  | zero =>
    intro m h
    rfl
  | succ n ih =>
    intro m h
    have h0 : (pollEvents c a (env.readouts m) fuel 0 0 0).2 = true := by
      simpa using h 0 (by omega)
    rw [measureLoop]
    rw [if_pos ((measureBlock_complete c a env name fuel m h0).1)]
    rw [ih (m + 1) (fun j hj => by simpa [Nat.add_assoc] using h (1 + j) (by omega))]
    have hfun : ((fun j => (measureBlock c a env name fuel (m + j)).1) ∘ Nat.succ) =
        (fun j => (measureBlock c a env name fuel (m + 1 + j)).1) := by
      funext j
      simp only [Function.comp_apply, Nat.succ_eq_add_one]
      congr 2
      omega
    rw [List.range_succ_eq_map, List.map_cons, List.map_map, List.flatten_cons, hfun]
    simp only [Nat.add_zero]

theorem measureBlock_mem (c : ℚ → ℚ → Bool) (a : Ev) (env : Env) (name : String)
    (fuel m : ℕ) :
    ∀ e ∈ (measureBlock c a env name fuel m).1,
      e = Ev.initConf ∨ e = Ev.activateSrq ∨ e = a ∨ e = Ev.readReadouts ∨
      e = Ev.startSweepEv ∨ e = Ev.waitSrq ∨ e = Ev.readCurve ∨
      (∃ nm ct, e = Ev.writeFile nm ct) ∨ e = Ev.discardEvents := by
  intro e he
  rw [measureBlock] at he
  split at he
  · rcases List.mem_cons.mp he with rfl | he1
    · tauto
    rcases List.mem_cons.mp he1 with rfl | he2
    · tauto
    rcases List.mem_append.mp he2 with hp | ht
    · rcases pollEvents_mem c a (env.readouts m) fuel 0 0 0 e hp with rfl | rfl <;> tauto
    · simp only [List.mem_cons, List.not_mem_nil, or_false] at ht
      rcases ht with rfl | rfl | rfl | rfl | rfl
      · tauto
      · tauto
      · tauto
      · exact Or.inr (Or.inr (Or.inr (Or.inr (Or.inr (Or.inr (Or.inr
          (Or.inl ⟨_, _, rfl⟩)))))))
      · tauto
  · rcases List.mem_cons.mp he with rfl | he1
    · tauto
    rcases List.mem_cons.mp he1 with rfl | he2
    · tauto
    rcases pollEvents_mem c a (env.readouts m) fuel 0 0 0 e he2 with rfl | rfl <;> tauto

theorem measureLoop_mem (c : ℚ → ℚ → Bool) (a : Ev) (env : Env) (name : String)
    (fuel : ℕ) :
    ∀ rem m, ∀ e ∈ measureLoop c a env name fuel m rem,
      e = Ev.initConf ∨ e = Ev.activateSrq ∨ e = a ∨ e = Ev.readReadouts ∨
      e = Ev.startSweepEv ∨ e = Ev.waitSrq ∨ e = Ev.readCurve ∨
      (∃ nm ct, e = Ev.writeFile nm ct) ∨ e = Ev.discardEvents := by
  intro rem
  induction rem with
  | zero =>
    intro m e he
    simp [measureLoop] at he
  | succ n ih =>
    intro m e he
    rw [measureLoop] at he
    split at he
    · rcases List.mem_append.mp he with hb | hr
      · exact measureBlock_mem c a env name fuel m e hb
      · exact ih (m + 1) e hr
    · exact measureBlock_mem c a env name fuel m e he

/-!
Claim C4.
-/

/-- C4: under the hypothesis that each repetition's polling loop
terminates (within the given fuel), each measurement routine with repeat
count `rep ≥ 1` writes exactly the files
`name + '_' + str(k)` for `k = 1 .. rep`, each containing the points of
the curve read in that repetition, reversed, one `x`, tab, `y`, newline
row per point. -/
theorem C4_result_files (env : Env) (max_i max_v min_i min_v limit : ℚ)
    (name : String) (rep fuel : ℕ) (_hrep : 1 ≤ rep) :
    ((∀ m, m < rep → (pollEvents (condMax max_i max_v) (Ev.incCollectorSupply 1)
        (env.readouts m) fuel 0 0 0).2 = true) →
      filesWritten (measure_IdVd env max_i max_v name rep fuel) =
        (List.range rep).map (fileEntry env name)) ∧
    ((∀ m, m < rep → (pollEvents (condMin min_i min_v) (Ev.incCollectorSupply 1)
        (env.readouts m) fuel 0 0 0).2 = true) →
      filesWritten (measure_3Q env min_i min_v name rep fuel) =
        (List.range rep).map (fileEntry env name)) ∧
    ((∀ m, m < rep → (pollEvents (condMax max_i max_v) (Ev.varyOffset (3/10) limit)
        (env.readouts m) fuel 0 0 0).2 = true) →
      filesWritten (measure_IdVgs env max_i max_v limit name rep fuel) =
        (List.range rep).map (fileEntry env name)) := by
  have hainc : ∀ nm ct, Ev.incCollectorSupply 1 ≠ Ev.writeFile nm ct := by
    intro nm ct hcontra
    cases hcontra
  have havar : ∀ nm ct, Ev.varyOffset (3/10) limit ≠ Ev.writeFile nm ct := by
    intro nm ct hcontra
    cases hcontra
  refine ⟨?_, ?_, ?_⟩
  · intro hterm
    rw [measure_IdVd,
      measureLoop_files (condMax max_i max_v) (Ev.incCollectorSupply 1) env name fuel hainc
        rep 0 (fun j hj => by simpa using hterm j hj)]
    simp
  · intro hterm
    rw [measure_3Q,
      measureLoop_files (condMin min_i min_v) (Ev.incCollectorSupply 1) env name fuel hainc
        rep 0 (fun j hj => by simpa using hterm j hj)]
    simp
  · intro hterm
    rw [measure_IdVgs,
      measureLoop_files (condMax max_i max_v) (Ev.varyOffset (3/10) limit) env name fuel havar
        rep 0 (fun j hj => by simpa using hterm j hj)]
    simp

/-- Oracle whose readouts immediately exceed any small threshold (both
cursors read 100), with a fixed two-point curve. -/
def envDemo : Env where
  readouts := fun _ _ => (100, 100)
  curve := fun _ => [(1, 2), (3, 4)]

/-- Oracle whose readouts are deeply negative (both cursors read -100),
with the same fixed curve; makes the `measure_3Q` polling loop exit. -/
def envNeg : Env where
  readouts := fun _ _ => (-100, -100)
  curve := fun _ => [(1, 2), (3, 4)]

/-- Witness for `C4_result_files`: with thresholds 20 and 5 (resp. -20 and -5),
one repetition and fuel 2, each routine writes exactly the single file
`t_1` with the reversed curve. -/
theorem C4_result_files_witness :
    filesWritten (measure_IdVd envDemo 20 5 ("t") 1 2) =
      (List.range 1).map (fileEntry envDemo ("t")) ∧
    filesWritten (measure_3Q envNeg (-20) (-5) ("t") 1 2) =
      (List.range 1).map (fileEntry envNeg ("t")) ∧
    filesWritten (measure_IdVgs envDemo 20 5 15 ("t") 1 2) =
      (List.range 1).map (fileEntry envDemo ("t")) :=
  ⟨(C4_result_files envDemo 20 5 (-20) (-5) 15 ("t") 1 2 (by omega)).1 (by decide),
   (C4_result_files envNeg 20 5 (-20) (-5) 15 ("t") 1 2 (by omega)).2.1 (by decide),
   (C4_result_files envDemo 20 5 (-20) (-5) 15 ("t") 1 2 (by omega)).2.2 (by decide)⟩

/-!
Claim C5.
-/

/-- C5: under the termination hypothesis, every run of a measurement
routine is a concatenation of per-repetition blocks, and each block has
the fixed order: configuration initialization, srq activation, a polling
phase consisting only of source adjustments and cursor readouts, then the
sweep start (`measure_mode = "SWEep"`), the srq wait, the curve read, the
result-file write, and the event discard.  In particular no sweep starts
before initialization and no file is written before its curve is read. -/
theorem C5_phase_order (env : Env) (max_i max_v min_i min_v limit : ℚ)
    (name : String) (rep fuel : ℕ) :
    ((∀ m, m < rep → (pollEvents (condMax max_i max_v) (Ev.incCollectorSupply 1)
        (env.readouts m) fuel 0 0 0).2 = true) →
      measure_IdVd env max_i max_v name rep fuel =
        ((List.range rep).map (fun m => (measureBlock (condMax max_i max_v)
          (Ev.incCollectorSupply 1) env name fuel m).1)).flatten ∧
      ∀ m, m < rep → blockShaped (Ev.incCollectorSupply 1) (resultFileName name m)
        (formatPoints ((env.curve m).reverse))
        ((measureBlock (condMax max_i max_v) (Ev.incCollectorSupply 1) env name fuel m).1)) ∧
    ((∀ m, m < rep → (pollEvents (condMin min_i min_v) (Ev.incCollectorSupply 1)
        (env.readouts m) fuel 0 0 0).2 = true) →
      measure_3Q env min_i min_v name rep fuel =
        ((List.range rep).map (fun m => (measureBlock (condMin min_i min_v)
          (Ev.incCollectorSupply 1) env name fuel m).1)).flatten ∧
      ∀ m, m < rep → blockShaped (Ev.incCollectorSupply 1) (resultFileName name m)
        (formatPoints ((env.curve m).reverse))
        ((measureBlock (condMin min_i min_v) (Ev.incCollectorSupply 1) env name fuel m).1)) ∧
    ((∀ m, m < rep → (pollEvents (condMax max_i max_v) (Ev.varyOffset (3/10) limit)
        (env.readouts m) fuel 0 0 0).2 = true) →
      measure_IdVgs env max_i max_v limit name rep fuel =
        ((List.range rep).map (fun m => (measureBlock (condMax max_i max_v)
          (Ev.varyOffset (3/10) limit) env name fuel m).1)).flatten ∧
      ∀ m, m < rep → blockShaped (Ev.varyOffset (3/10) limit) (resultFileName name m)
        (formatPoints ((env.curve m).reverse))
        ((measureBlock (condMax max_i max_v) (Ev.varyOffset (3/10) limit) env name fuel m).1)) := by
  refine ⟨fun hterm => ⟨?_, ?_⟩, fun hterm => ⟨?_, ?_⟩, fun hterm => ⟨?_, ?_⟩⟩
  · rw [measure_IdVd,
      measureLoop_flatten (condMax max_i max_v) (Ev.incCollectorSupply 1) env name fuel
        rep 0 (fun j hj => by simpa using hterm j hj)]
    simp
  · intro m hm
    exact measureBlock_shape _ _ env name fuel m (hterm m hm)
  · rw [measure_3Q,
      measureLoop_flatten (condMin min_i min_v) (Ev.incCollectorSupply 1) env name fuel
        rep 0 (fun j hj => by simpa using hterm j hj)]
    simp
  · intro m hm
    exact measureBlock_shape _ _ env name fuel m (hterm m hm)
  · rw [measure_IdVgs,
      measureLoop_flatten (condMax max_i max_v) (Ev.varyOffset (3/10) limit) env name fuel
        rep 0 (fun j hj => by simpa using hterm j hj)]
    simp
  · intro m hm
    exact measureBlock_shape _ _ env name fuel m (hterm m hm)

/-- Witness for `C5_phase_order`: instantiated at `envDemo`, thresholds
20/5, one repetition, fuel 2, the `measure_IdVd` run decomposes into its
single shaped block. -/
theorem C5_phase_order_witness :
    measure_IdVd envDemo 20 5 ("t") 1 2 =
      ((List.range 1).map (fun m => (measureBlock (condMax 20 5)
        (Ev.incCollectorSupply 1) envDemo ("t") 2 m).1)).flatten ∧
    ∀ m, m < 1 → blockShaped (Ev.incCollectorSupply 1) (resultFileName ("t") m)
      (formatPoints ((envDemo.curve m).reverse))
      ((measureBlock (condMax 20 5) (Ev.incCollectorSupply 1) envDemo ("t") 2 m).1) :=
  (C5_phase_order envDemo 20 5 (-20) (-5) 15 ("t") 1 2).1 (by decide)

/-!
Claim C6.
-/

/-- C6: in `measure_IdVgs` the polling loop varies the step-generator
offset (`vary_stepgen_offset(0.3, limit)`) and never the collector supply;
each iteration emits the offset variation followed by the cursor readouts;
the loop exits exactly when `i_cursor ≥ max_i` or `v_cursor ≥ max_v`; and
within each completed repetition every offset variation occurs before the
sweep start. -/
theorem C6_idvgs_polling (env : Env) (max_i max_v limit : ℚ) (name : String)
    (rep fuel k m : ℕ) (i v : ℚ) :
    (∀ e ∈ measure_IdVgs env max_i max_v limit name rep fuel,
      ∀ d, e ≠ Ev.incCollectorSupply d) ∧
    (i < max_i ∧ v < max_v →
      (pollEvents (condMax max_i max_v) (Ev.varyOffset (3/10) limit) (env.readouts m)
          (fuel + 1) k i v).1 =
        Ev.varyOffset (3/10) limit :: Ev.readReadouts ::
          (pollEvents (condMax max_i max_v) (Ev.varyOffset (3/10) limit) (env.readouts m)
            fuel (k + 1) (env.readouts m k).1 (env.readouts m k).2).1) ∧
    ((pollEvents (condMax max_i max_v) (Ev.varyOffset (3/10) limit) (env.readouts m)
        (fuel + 1) k i v).1 = [] ↔ (max_i ≤ i ∨ max_v ≤ v)) ∧
    ((pollEvents (condMax max_i max_v) (Ev.varyOffset (3/10) limit) (env.readouts m)
        fuel 0 0 0).2 = true →
      blockShaped (Ev.varyOffset (3/10) limit) (resultFileName name m)
        (formatPoints ((env.curve m).reverse))
        ((measureBlock (condMax max_i max_v) (Ev.varyOffset (3/10) limit)
          env name fuel m).1)) := by
  refine ⟨?_, ?_, ?_, ?_⟩
  · intro e he d
    rcases measureLoop_mem (condMax max_i max_v) (Ev.varyOffset (3/10) limit) env name fuel
        rep 0 e he with rfl | rfl | rfl | rfl | rfl | rfl | rfl | ⟨nm, ct, rfl⟩ | rfl <;>
      intro hcontra <;> cases hcontra
  · rintro ⟨h1, h2⟩
    have hc : condMax max_i max_v i v = true := by
      simp [condMax, h1, h2]
    rw [pollEvents, if_pos hc]
  · by_cases hc : i < max_i ∧ v < max_v
    · have hct : condMax max_i max_v i v = true := by
        simp [condMax, hc.1, hc.2]
      rw [pollEvents, if_pos hct]
      constructor
      · intro hcontra
        simp at hcontra
      · intro hcontra
        exfalso
        rcases hcontra with h | h
        · exact absurd hc.1 (not_lt.mpr h)
        · exact absurd hc.2 (not_lt.mpr h)
    · have hcf : ¬ (condMax max_i max_v i v = true) := by
        simp only [condMax, Bool.and_eq_true, decide_eq_true_eq]
        exact hc
      rw [pollEvents, if_neg hcf]
      simp only [true_iff]
      rcases not_and_or.mp hc with h | h
      · exact Or.inl (le_of_not_lt h)
      · exact Or.inr (le_of_not_lt h)
  · intro hterm
    exact measureBlock_shape _ _ env name fuel m hterm

/-- Witness for `C6_idvgs_polling` at `envDemo`: below the thresholds the
loop body emits the offset variation then the readouts, and the loop does
not exit. -/
theorem C6_idvgs_polling_witness :
    (pollEvents (condMax 20 5) (Ev.varyOffset (3/10) 15) (envDemo.readouts 0) 2 0 0 0).1 =
      Ev.varyOffset (3/10) 15 :: Ev.readReadouts ::
        (pollEvents (condMax 20 5) (Ev.varyOffset (3/10) 15) (envDemo.readouts 0) 1 1
          (envDemo.readouts 0 0).1 (envDemo.readouts 0 0).2).1 :=
  (C6_idvgs_polling envDemo 20 5 15 ("t") 1 1 0 0 0 0).2.1 (by constructor <;> decide)

end DUT
